import Mathlib

/-!
Shallow embedding of the notes application (two-pane notes SPA).

The embedding covers the client-side state reconciliation layer
(`NotesPage` in the page component) and the REST API client
(`src/notes_frontend/src/api/notesApi.js`).

Modelling conventions:
* JS strings are Lean `String`s; a JS value that may be `null`/`undefined`
  is an `Option String` with `none` for both nullish values (the code only
  distinguishes them through `??`/`||`/`===`, and every place the claims
  touch treats them alike; records carrying an explicit `null` id are out
  of scope).
* `Date` parsing (`new Date(ts).getTime()`) and `encodeURIComponent` are
  taken as function parameters (`getTime : String → Int`,
  `enc : String → String`): the claims never depend on their definitions,
  only on where the code applies them.  `NaN`-valued dates are out of scope.
* Asynchronous calls are modelled by passing the eventual outcome of the
  network operation to the handler as an explicit argument; the handler
  returns the list of API calls it issued together with the new state.
* The React batched state updates plus the draft-sync `useEffect` (which has
  dependency array `[selectedId]`) are modelled by running the handler to
  its final committed state and then applying the draft-sync effect exactly
  when the selected id changed.
* `JSON.parse`d values are represented by their serialized text, so
  `response.json()` yields `Payload.json body` and `JSON.stringify` of that
  value is the text itself.
-/

/-- JS `a ?? b` (nullish coalescing) on possibly-nullish strings. -/
def jsCoalesce (a b : Option String) : Option String :=
  match a with
  | some v => some v
  | none => b

/-- JS truthiness of a nullish-or-string value: `null`/`undefined` and the
empty string are falsy. -/
def jsTruthyStr : Option String → Bool
  | none => false
  | some s => !(s == "")

/-- Character-list core of JS `String.prototype.includes`. -/
def jsIncludesList (needle : List Char) : List Char → Bool
  | [] => needle.isEmpty
  | c :: rest => needle.isPrefixOf (c :: rest) || jsIncludesList needle rest

/-- JS `s.includes(sub)`: substring containment. -/
def jsIncludes (s sub : String) : Bool :=
  jsIncludesList sub.data s.data

/-- JS `s.startsWith(p)`. -/
def jsStartsWith (s p : String) : Bool :=
  p.data.isPrefixOf s.data

/-- JS `s.trim()` (whitespace is approximated by `Char.isWhitespace`). -/
def jsTrim (s : String) : String :=
  String.mk (((s.data.dropWhile Char.isWhitespace).reverse.dropWhile Char.isWhitespace).reverse)

/-- JS `s.trimEnd()`. -/
def jsTrimEnd (s : String) : String :=
  String.mk ((s.data.reverse.dropWhile Char.isWhitespace).reverse)

/-- JS `s.toLowerCase()` (ASCII case mapping, via `Char.toLower`). -/
def jsToLower (s : String) : String :=
  String.mk (s.data.map Char.toLower)

/-- A server note record as the backend may return it: every field the code
reads is possibly absent.  Field names follow the JS property names read by
`normalizeNote`. -/
structure ServerRecord where
  id : Option String
  _id : Option String
  noteId : Option String
  uuid : Option String
  title : Option String
  content : Option String
  updatedAt : Option String
  updated_at : Option String
  modifiedAt : Option String
  modified_at : Option String
  createdAt : Option String
  created_at : Option String
deriving DecidableEq, Repr

/-- A server record with every field absent. -/
def emptyRecord : ServerRecord :=
  ⟨none, none, none, none, none, none, none, none, none, none, none, none⟩

/-- The canonical, post-normalization note shape produced by `normalizeNote`. -/
structure Note where
  id : Option String
  title : String
  content : String
  updatedAt : String
  createdAt : String
  raw : ServerRecord
deriving DecidableEq, Repr

/-- `normalizeNote(note)` from the page component.  `nowIso()` is passed in
as the `now` argument (the current instant at normalization time). -/
def normalizeNote (now : String) (note : ServerRecord) : Note :=
  { id := jsCoalesce note.id (jsCoalesce note._id (jsCoalesce note.noteId note.uuid))
    title := note.title.getD ""
    content := note.content.getD ""
    updatedAt := (jsCoalesce note.updatedAt (jsCoalesce note.updated_at
      (jsCoalesce note.modifiedAt note.modified_at))).getD now
    createdAt := (jsCoalesce note.createdAt note.created_at).getD now
    raw := note }

/-- First present (non-nullish) value of a list of possibly-absent fields;
used to state the field-tolerance property of `normalizeNote`. -/
def firstPresent : List (Option String) → Option String
  | [] => none
  | some v :: _ => some v
  | none :: rest => firstPresent rest

/-! ## API client (`notesApi.js`) -/

/-- The two environment variables read by `getApiBase`; the empty string
models an unset variable (JS `||` treats `undefined` and `""` alike here). -/
structure Env where
  REACT_APP_API_BASE : String
  REACT_APP_BACKEND_URL : String
deriving DecidableEq, Repr

/-- `raw.replace(/\/+$/, "")`: strip all trailing slashes. -/
def dropTrailingSlashes (s : String) : String :=
  String.mk ((s.data.reverse.dropWhile (fun c => c == '/')).reverse)

/-- `getApiBase()`: first non-empty of the two variables, trailing slashes
stripped. -/
def getApiBase (env : Env) : String :=
  let raw := if env.REACT_APP_API_BASE == "" then env.REACT_APP_BACKEND_URL
             else env.REACT_APP_API_BASE
  dropTrailingSlashes raw

/-- An HTTP response as observed through the `fetch` API.  `contentType` is
`response.headers.get("content-type") || ""`; `body` is the raw body text
(a JSON body is represented by its serialized text). -/
structure HttpResp where
  status : Nat
  statusText : String
  contentType : String
  body : String
deriving DecidableEq, Repr

/-- `response.ok` per the fetch specification: status in the range 200-299. -/
def HttpResp.ok (r : HttpResp) : Bool :=
  decide (200 ≤ r.status) && decide (r.status < 300)

/-- Result of `parseJsonOrText`: a decoded JSON value (represented by its
serialized text) or raw text. -/
inductive Payload
  | json (stringified : String)
  | text (raw : String)
deriving DecidableEq, Repr

/-- `parseJsonOrText(response)`: JSON-decode when the content type declares
JSON, else raw text. -/
def parseJsonOrText (r : HttpResp) : Payload :=
  if jsIncludes r.contentType "application/json" then .json r.body else .text r.body

/-- `typeof payload === "string" ? payload : JSON.stringify(payload)`. -/
def payloadDetails : Payload → String
  | .json s => s
  | .text s => s

/-- The eventual outcome of the `fetch` call inside `request`. -/
inductive FetchOutcome
  | networkError (msg : String)
  | response (r : HttpResp)
deriving DecidableEq, Repr

/-- The configuration-error message thrown before any network call. -/
def missingBaseMsg : String :=
  "Missing API base URL. Set REACT_APP_API_BASE (preferred) or REACT_APP_BACKEND_URL in the environment."

/-- The message of the error thrown for a non-2xx response. -/
def apiErrorMsg (r : HttpResp) : String :=
  "API error " ++ toString r.status ++ " " ++ r.statusText ++ ": " ++
    payloadDetails (parseJsonOrText r)

/-- `request(path, options)` from `notesApi.js`.  The first component is the
list of URLs a network call was attempted at (empty when the function throws
before calling `fetch`); the second is the resolved value (`none` models the
`null` returned for 204 No Content) or the message of the thrown error. -/
def request (env : Env) (path : String) (outcome : FetchOutcome) :
    List String × Except String (Option Payload) :=
  let base := getApiBase env
  if base == "" then
    ([], .error missingBaseMsg)
  else
    let url := base ++ (if jsStartsWith path "/" then "" else "/") ++ path
    match outcome with
    | .networkError msg =>
      ([url], .error ("Network error contacting backend at " ++ base ++ ". " ++ msg))
    | .response r =>
      if !r.ok then
        ([url], .error (apiErrorMsg r))
      else if r.status == 204 then
        ([url], .ok none)
      else
        ([url], .ok (some (parseJsonOrText r)))

/-- `{title, content}` payload for create/update.  In the typed model the
payload-shape validation in `createNote`/`updateNote`
(`typeof note.title !== "string"` …) always passes. -/
structure NotePayload where
  title : String
  content : String
deriving DecidableEq, Repr

/-- `listNotes()`. -/
def listNotes (env : Env) (outcome : FetchOutcome) :
    List String × Except String (Option Payload) :=
  request env "/notes" outcome

/-- `createNote(note)`. -/
def createNote (env : Env) (_note : NotePayload) (outcome : FetchOutcome) :
    List String × Except String (Option Payload) :=
  request env "/notes" outcome

/-- `updateNote(id, note)`; `enc` is `encodeURIComponent`. -/
def updateNote (env : Env) (enc : String → String) (id : String) (_note : NotePayload)
    (outcome : FetchOutcome) : List String × Except String (Option Payload) :=
  if id == "" then ([], .error "Missing note id.")
  else request env ("/notes/" ++ enc id) outcome

/-- `deleteNote(id)`; `enc` is `encodeURIComponent`. -/
def deleteNote (env : Env) (enc : String → String) (id : String)
    (outcome : FetchOutcome) : List String × Except String (Option Payload) :=
  if id == "" then ([], .error "Missing note id.")
  else request env ("/notes/" ++ enc id) outcome

/-! ## State controller (`NotesPage`) -/

/-- Toast kind: error or success. -/
inductive ToastKind
  | error
  | success
deriving DecidableEq, Repr

/-- `{ kind, message }` toast value. -/
structure Toast where
  kind : ToastKind
  message : String
deriving DecidableEq, Repr

/-- The React state owned by `NotesPage`.  The search box state is passed to
`filteredNotes` separately, since the claims quantify over the query. -/
structure AppState where
  notes : List Note
  selectedId : Option String
  draftTitle : String
  draftContent : String
  isLoading : Bool
  isSaving : Bool
  isDeleting : Bool
  toast : Option Toast
deriving DecidableEq, Repr

/-- The state at mount: `useState` initial values. -/
def initialState : AppState :=
  { notes := [], selectedId := none, draftTitle := "", draftContent := ""
    isLoading := true, isSaving := false, isDeleting := false, toast := none }

/-- `selected`: `notes.find((n) => n.id === selectedId) || null`.  When
`selectedId` is nullish the strict comparison with an absent id is false,
so no note is found. -/
def selectedNote (s : AppState) : Option Note :=
  match s.selectedId with
  | none => none
  | some sid => s.notes.find? (fun n => n.id == some sid)

/-- `hasEdits()`: a note is selected and the draft differs from its persisted
title or content. -/
def hasEdits (s : AppState) : Bool :=
  match selectedNote s with
  | none => false
  | some n => !(s.draftTitle == n.title) || !(s.draftContent == n.content)

/-- The draft-sync `useEffect` body: overwrite the draft from the selected
note, or with empty strings when none is selected. -/
def draftSyncEffect (s : AppState) : AppState :=
  match selectedNote s with
  | none => { s with draftTitle := "", draftContent := "" }
  | some n => { s with draftTitle := n.title, draftContent := n.content }

/-- Run the draft-sync effect after a committed update exactly when the
selected id changed (the dependency array of the effect is `[selectedId]`). -/
def afterSelectionChange (prevSel : Option String) (s : AppState) : AppState :=
  if s.selectedId == prevSel then s else draftSyncEffect s

/-- An API call issued by a handler, with the arguments passed to the client. -/
inductive ApiCall
  | list
  | create (title content : String)
  | update (id title content : String)
  | delete (id : String)
deriving DecidableEq, Repr

/-- `handleNew()`: clear toast, deselect, seed the draft — no API call.  The
result includes the draft-sync effect that a selection change triggers. -/
def handleNew (s : AppState) : List ApiCall × AppState :=
  let s1 := { s with
    toast := none, selectedId := none,
    draftTitle := "Untitled", draftContent := "" }
  ([], afterSelectionChange s.selectedId s1)

/-- The value the `listNotes()` promise of the initial load resolves to, as far as
the shape dispatch `Array.isArray(res) ? res : res?.notes || []` observes it. -/
inductive NotesField
  | falsy
  | arrayOf (xs : List ServerRecord)
  | truthyNonArray
deriving DecidableEq, Repr

/-- Shape of the resolved list response: an array, a non-null object with a
`notes` member of the given kind, a nullish value, or a primitive. -/
inductive ListResponse
  | arrayOf (xs : List ServerRecord)
  | objectWith (notes : NotesField)
  | nullish
  | primitive (truthy : Bool)
deriving DecidableEq, Repr

/-- `Array.isArray(res) ? res : res?.notes || []` followed by `arr.map`:
a truthy non-array `notes` member makes `arr.map` throw a `TypeError`. -/
def extractArr : ListResponse → Except String (List ServerRecord)
  | .arrayOf xs => .ok xs
  | .objectWith (.arrayOf xs) => .ok xs
  | .objectWith .falsy => .ok []
  | .objectWith .truthyNonArray => .error "arr.map is not a function"
  | .nullish => .ok []
  | .primitive _ => .ok []

/-- The complete run of `load()` inside the load effect around one resolution of
`listNotes()`.  `cancelled` is the teardown flag at resolution time; the
synchronous prefix (`setIsLoading(true); setToast(null)`) always runs. -/
def loadComplete (s : AppState) (cancelled : Bool) (res : Except String ListResponse)
    (now : String) : List ApiCall × AppState :=
  let s1 := { s with isLoading := true, toast := none }
  match res with
  | .error msg =>
    if cancelled then ([.list], s1)
    else ([.list], { s1 with toast := some ⟨.error, msg⟩, isLoading := false })
  | .ok r =>
    match extractArr r with
    | .error msg =>
      if cancelled then ([.list], s1)
      else ([.list], { s1 with toast := some ⟨.error, msg⟩, isLoading := false })
    | .ok xs =>
      if cancelled then ([.list], s1)
      else
        let normalized := xs.map (normalizeNote now)
        let first := normalized.head?.bind Note.id
        let s2 := { s1 with
          notes := normalized,
          selectedId := (match s1.selectedId with
                         | some v => some v
                         | none => first),
          isLoading := false }
        ([.list], afterSelectionChange s.selectedId s2)

/-- JS `{ ...prev, ...next }` on two canonical notes: `normalizeNote` assigns
every own property of the canonical shape, so the spread overwrites each
field of `prev` with the corresponding field of `next`. -/
def spreadMerge (_prev next : Note) : Note :=
  { id := next.id, title := next.title, content := next.content
    updatedAt := next.updatedAt, createdAt := next.createdAt, raw := next.raw }

/-- `handleSave()` around one resolution of the network call (if any).
`res` is the outcome `createNote`/`updateNote` settles with; `now` is the
normalization instant.  The trace lists the client call made. -/
def handleSave (s : AppState) (res : Except String ServerRecord) (now : String) :
    List ApiCall × AppState :=
  let s0 := { s with toast := none }
  let title := jsTrim s.draftTitle
  let content := jsTrimEnd s.draftContent
  if title == "" then
    ([], { s0 with toast := some ⟨.error, "Title is required."⟩ })
  else
    let s1 := { s0 with isSaving := true }
    if jsTruthyStr s.selectedId then
      match s.selectedId with
      | some sid =>
        match res with
        | .ok rec =>
          let normalized := normalizeNote now rec
          let s2 := { s1 with
                      notes := s1.notes.map (fun n =>
                        if n.id == some sid then spreadMerge n normalized else n),
                      toast := some ⟨.success, "Note saved."⟩,
                      isSaving := false }
          ([.update sid title content], afterSelectionChange s.selectedId s2)
        | .error msg =>
          ([.update sid title content],
           { s1 with toast := some ⟨.error, msg⟩, isSaving := false })
      | none =>
        ([], s1)
    else
      match res with
      | .ok rec =>
        let normalized := normalizeNote now rec
        let s2 := { s1 with
          notes := normalized :: s1.notes,
          selectedId := normalized.id,
          toast := some ⟨.success, "Note created."⟩,
          isSaving := false }
        ([.create title content], afterSelectionChange s.selectedId s2)
      | .error msg =>
        ([.create title content],
         { s1 with toast := some ⟨.error, msg⟩, isSaving := false })

/-- `handleDelete()` around one resolution of `deleteNote(selectedId)`.
Without a truthy selection it fails locally with a validation error and no
network call. -/
def handleDelete (s : AppState) (res : Except String Unit) :
    List ApiCall × AppState :=
  if jsTruthyStr s.selectedId then
    match s.selectedId with
    | some sid =>
      let s1 := { s with toast := none, isDeleting := true }
      match res with
      | .ok _ =>
        let remaining := s.notes.filter (fun n => !(n.id == some sid))
        let s2 := { s1 with
          notes := remaining,
          selectedId := remaining.head?.bind Note.id,
          toast := some ⟨.success, "Note deleted."⟩,
          isDeleting := false }
        ([.delete sid], afterSelectionChange s.selectedId s2)
      | .error msg =>
        ([.delete sid], { s1 with toast := some ⟨.error, msg⟩, isDeleting := false })
    | none => ([], s)
  else
    ([], { s with toast := some ⟨.error, "Select a note to delete."⟩ })

/-! ## Visible list (`filteredNotes` memo) -/

/-- `new Date(a.updatedAt || a.createdAt || 0).getTime()`: JS `||` picks the
first non-empty string, falling back to epoch zero. -/
def sortKey (getTime : String → Int) (n : Note) : Int :=
  if !(n.updatedAt == "") then getTime n.updatedAt
  else if !(n.createdAt == "") then getTime n.createdAt
  else 0

/-- The comparator `(a, b) => bt - at` orders `a` before `b` exactly when
the key of `b` is at most the key of `a` (descending by key). -/
def noteLe (getTime : String → Int) (a b : Note) : Bool :=
  decide (sortKey getTime b ≤ sortKey getTime a)

/-- `[...notes].sort(comparator)`: a stable sort by descending key
(`Array.prototype.sort` is stable per ES2019). -/
def sortNotes (getTime : String → Int) (notes : List Note) : List Note :=
  notes.mergeSort (noteLe getTime)

/-- `(n.title || "").toLowerCase().includes(q) || (n.content || "").toLowerCase().includes(q)`
(the `|| ""` is the identity on the already-string canonical fields). -/
def matchesQuery (q : String) (n : Note) : Bool :=
  jsIncludes (jsToLower n.title) q || jsIncludes (jsToLower n.content) q

/-- The `filteredNotes` memo: normalize the query, sort the full collection,
then filter only when the query is non-empty. -/
def filteredNotes (getTime : String → Int) (search : String) (notes : List Note) :
    List Note :=
  let q := jsToLower (jsTrim search)
  let base := sortNotes getTime notes
  if q == "" then base else base.filter (matchesQuery q)

/-- Header Save button `disabled` expression:
`isSaving || (!selectedId && !(draftTitle || "").trim()) || (selectedId && !hasEdits())`. -/
def headerSaveDisabled (s : AppState) : Bool :=
  s.isSaving || (!(jsTruthyStr s.selectedId) && (jsTrim s.draftTitle == ""))
    || (jsTruthyStr s.selectedId && !(hasEdits s))

/-- The save entry point of the editor form: its submit button is disabled only by
`isSaving`, and the `required` title input blocks submission exactly when the
draft title is the empty string (whitespace passes the browser check). -/
def formSubmitInvocable (s : AppState) : Bool :=
  !s.isSaving && !(s.draftTitle == "")

/-- A save can be invoked through some entry point: the header button is
enabled, or the editor form can be submitted. -/
def saveInvocable (s : AppState) : Bool :=
  !(headerSaveDisabled s) || formSubmitInvocable s

/-! ## Concrete fixtures used by counterexamples and witnesses -/

/-- The load-response shapes the code silently treats as zero notes:
nullish, primitive, or an object whose `notes` member is falsy. -/
def unrecognizedShape : ListResponse → Bool
  | .nullish => true
  | .primitive _ => true
  | .objectWith .falsy => true
  | _ => false

/-- Server record for note A. -/
def recA : ServerRecord :=
  { emptyRecord with id := some "a", title := some "A", content := some "body",
                     updatedAt := some "2024-01-02", createdAt := some "2024-01-01" }

/-- Server record for note B. -/
def recB : ServerRecord :=
  { emptyRecord with id := some "b", title := some "B", content := some "",
                     updatedAt := some "2024-01-01", createdAt := some "2024-01-01" }

/-- Server record returned by a successful update of note A. -/
def recUpd : ServerRecord :=
  { emptyRecord with id := some "a", title := some "A2", content := some "body2",
                     updatedAt := some "2024-01-03", createdAt := some "2024-01-01" }

/-- Canonical note A. -/
def noteA : Note := normalizeNote "T0" recA

/-- Canonical note B. -/
def noteB : Note := normalizeNote "T0" recB

/-- A settled state holding notes A and B with A selected and the draft equal
to the persisted title and content of A. -/
def stateAB : AppState :=
  { notes := [noteA, noteB], selectedId := some "a", draftTitle := "A",
    draftContent := "body", isLoading := false, isSaving := false,
    isDeleting := false, toast := none }

/-- `stateAB` with unsaved draft edits. -/
def stateEdit : AppState :=
  { stateAB with draftTitle := "A2", draftContent := "body2" }

/-- `stateAB` while a save is in flight. -/
def stateSaving : AppState :=
  { stateAB with isSaving := true }

/-- A settled state with nothing selected and a whitespace-only draft title. -/
def stateEmptyDraft : AppState :=
  { initialState with isLoading := false, draftTitle := "   " }

/-- A server record carrying only the alternate field names `_id` and
`updated_at`. -/
def recMid : ServerRecord :=
  { emptyRecord with _id := some "m", updated_at := some "u" }

/-! ## Helper lemmas -/

/-- `a ?? undefined` is `a`. -/
theorem jsCoalesce_none_right (a : Option String) : jsCoalesce a none = a := by
  cases a <;> rfl

/-- `firstPresent` unfolds through `jsCoalesce` one field at a time. -/
theorem firstPresent_cons (a : Option String) (rest : List (Option String)) :
    firstPresent (a :: rest) = jsCoalesce a (firstPresent rest) := by
  cases a <;> rfl

/-- The draft-sync effect only ever writes the draft fields. -/
theorem draftSyncEffect_frame (s : AppState) :
    (draftSyncEffect s).notes = s.notes
    ∧ (draftSyncEffect s).selectedId = s.selectedId
    ∧ (draftSyncEffect s).toast = s.toast
    ∧ (draftSyncEffect s).isLoading = s.isLoading
    ∧ (draftSyncEffect s).isSaving = s.isSaving
    ∧ (draftSyncEffect s).isDeleting = s.isDeleting := by
  unfold draftSyncEffect
  cases selectedNote s <;> exact ⟨rfl, rfl, rfl, rfl, rfl, rfl⟩

/-- `afterSelectionChange` only ever writes the draft fields. -/
theorem afterSelectionChange_notes (p : Option String) (s : AppState) :
    (afterSelectionChange p s).notes = s.notes := by
  unfold afterSelectionChange
  split
  · rfl
  · exact (draftSyncEffect_frame s).1

/-- `afterSelectionChange` preserves the selected id. -/
theorem afterSelectionChange_selectedId (p : Option String) (s : AppState) :
    (afterSelectionChange p s).selectedId = s.selectedId := by
  unfold afterSelectionChange
  split
  · rfl
  · exact (draftSyncEffect_frame s).2.1

/-- `afterSelectionChange` preserves the toast. -/
theorem afterSelectionChange_toast (p : Option String) (s : AppState) :
    (afterSelectionChange p s).toast = s.toast := by
  unfold afterSelectionChange
  split
  · rfl
  · exact (draftSyncEffect_frame s).2.2.1

/-- `afterSelectionChange` preserves the loading flag. -/
theorem afterSelectionChange_isLoading (p : Option String) (s : AppState) :
    (afterSelectionChange p s).isLoading = s.isLoading := by
  unfold afterSelectionChange
  split
  · rfl
  · exact (draftSyncEffect_frame s).2.2.2.1

/-- `afterSelectionChange` preserves the saving flag. -/
theorem afterSelectionChange_isSaving (p : Option String) (s : AppState) :
    (afterSelectionChange p s).isSaving = s.isSaving := by
  unfold afterSelectionChange
  split
  · rfl
  · exact (draftSyncEffect_frame s).2.2.2.2.1

/-- `afterSelectionChange` preserves the deleting flag. -/
theorem afterSelectionChange_isDeleting (p : Option String) (s : AppState) :
    (afterSelectionChange p s).isDeleting = s.isDeleting := by
  unfold afterSelectionChange
  split
  · rfl
  · exact (draftSyncEffect_frame s).2.2.2.2.2

/-- When the selected id did not change, the draft-sync effect does not run. -/
theorem afterSelectionChange_same (p : Option String) (s : AppState)
    (h : s.selectedId = p) : afterSelectionChange p s = s := by
  unfold afterSelectionChange
  simp [h]

/-! ## Claim theorems -/

/-- C7: normalization derives the canonical `id` as the first present of
`id`, `_id`, `noteId`, `uuid`; `updatedAt` as the first present of
`updatedAt`, `updated_at`, `modifiedAt`, `modified_at`; `createdAt` as the
first present of `createdAt`, `created_at`; a missing timestamp defaults to
the normalization instant.  In particular a record with `_id` but no `id`
gets `id` equal to the `_id` value, and a record with `updated_at` but no
`updatedAt` gets `updatedAt` equal to `updated_at`. -/
theorem normalizeNote_field_tolerance (r : ServerRecord) (now : String) :
    (normalizeNote now r).id = firstPresent [r.id, r._id, r.noteId, r.uuid]
    ∧ (normalizeNote now r).updatedAt
        = (firstPresent [r.updatedAt, r.updated_at, r.modifiedAt, r.modified_at]).getD now
    ∧ (normalizeNote now r).createdAt
        = (firstPresent [r.createdAt, r.created_at]).getD now
    ∧ (∀ v, r.id = none → r._id = some v → (normalizeNote now r).id = some v)
    ∧ (∀ v, r.updatedAt = none → r.updated_at = some v →
        (normalizeNote now r).updatedAt = v)
    ∧ (r.updatedAt = none → r.updated_at = none → r.modifiedAt = none →
        r.modified_at = none → (normalizeNote now r).updatedAt = now)
    ∧ (r.createdAt = none → r.created_at = none →
        (normalizeNote now r).createdAt = now) := by
  refine ⟨?_, ?_, ?_, ?_, ?_, ?_, ?_⟩
  · simp [normalizeNote, firstPresent_cons, firstPresent, jsCoalesce_none_right]
  · simp [normalizeNote, firstPresent_cons, firstPresent, jsCoalesce_none_right]
  · simp [normalizeNote, firstPresent_cons, firstPresent, jsCoalesce_none_right]
  · intro v h1 h2
    simp [normalizeNote, h1, h2, jsCoalesce]
  · intro v h1 h2
    simp [normalizeNote, h1, h2, jsCoalesce]
  · intro h1 h2 h3 h4
    simp [normalizeNote, h1, h2, h3, h4, jsCoalesce]
  · intro h1 h2
    simp [normalizeNote, h1, h2, jsCoalesce]

/-- C7 witness: a record with only `_id` and `updated_at` normalizes to that
id, that update time, and the default creation instant. -/
theorem normalizeNote_field_tolerance_witness :
    recMid.id = none ∧ recMid._id = some "m"
    ∧ (normalizeNote "NOW" recMid).id = some "m"
    ∧ (normalizeNote "NOW" recMid).updatedAt = "u"
    ∧ (normalizeNote "NOW" recMid).createdAt = "NOW" := by
  have h := normalizeNote_field_tolerance recMid "NOW"
  exact ⟨rfl, rfl, h.2.2.2.1 "m" rfl rfl, h.2.2.2.2.1 "u" rfl rfl,
    h.2.2.2.2.2.2 rfl rfl⟩

/-- C1 counterexample: invoking the new-note intent from a state in which a
note is selected ends — after the draft-reset side effect of the selection
change — with an empty draft title, not `"Untitled"`. -/
theorem handleNew_draft_cex :
    stateAB.selectedId = some "a"
    ∧ (handleNew stateAB).2.draftTitle = ""
    ∧ (handleNew stateAB).2.draftTitle ≠ "Untitled" := by
  refine ⟨rfl, by decide, by decide⟩

/-- C1 amended: the new-note intent issues no API call, clears the toast,
deselects, and sets the draft content to the empty string; the draft title
ends as `"Untitled"` exactly when no note was selected before the intent —
when one was, the draft-reset effect triggered by the selection change
overwrites the title to the empty string. -/
theorem handleNew_amended (s : AppState) :
    (handleNew s).1 = []
    ∧ (handleNew s).2.toast = none
    ∧ (handleNew s).2.selectedId = none
    ∧ (handleNew s).2.draftTitle = (if s.selectedId = none then "Untitled" else "")
    ∧ (handleNew s).2.draftContent = "" := by
  cases h : s.selectedId <;>
    simp [handleNew, afterSelectionChange, draftSyncEffect, selectedNote, h]

/-- C2 counterexample: in a state where a note is selected and the draft is
identical to its persisted title and content, the header Save button is
disabled, but the editor form submit path is still invocable and running the
save performs a network call and mutates state. -/
theorem saveGuard_cex :
    stateAB.selectedId = some "a"
    ∧ hasEdits stateAB = false
    ∧ stateAB.isSaving = false
    ∧ headerSaveDisabled stateAB = true
    ∧ saveInvocable stateAB = true
    ∧ (handleSave stateAB (.ok recUpd) "T2").1 = [.update "a" "A" "body"]
    ∧ (handleSave stateAB (.ok recUpd) "T2").2 ≠ stateAB := by
  refine ⟨rfl, by decide, rfl, by decide, by decide, by decide, by decide⟩

/-- C2 amended: an in-flight save makes both save entry points unavailable;
the header save control is additionally unavailable when nothing is selected
and the trimmed draft title is empty, or when a note is selected and the
draft matches its persisted title and content; and a save invoked with an
empty trimmed title performs no network call.  The editor form submit path,
however, is guarded only by the in-flight flag and the non-empty raw title. -/
theorem saveGuard_amended :
    (∀ s, s.isSaving = true → saveInvocable s = false)
    ∧ (∀ s, jsTruthyStr s.selectedId = false → jsTrim s.draftTitle = "" →
        headerSaveDisabled s = true)
    ∧ (∀ s, jsTruthyStr s.selectedId = true → hasEdits s = false →
        headerSaveDisabled s = true)
    ∧ (∀ s res now, jsTrim s.draftTitle = "" → (handleSave s res now).1 = []) := by
  refine ⟨?_, ?_, ?_, ?_⟩
  · intro s h
    simp [saveInvocable, headerSaveDisabled, formSubmitInvocable, h]
  · intro s h1 h2
    simp [headerSaveDisabled, h1, h2]
  · intro s h1 h2
    simp [headerSaveDisabled, h1, h2]
  · intro s res now h
    simp [handleSave, h]

/-- C2 amended witness: concrete states exercising each guard. -/
theorem saveGuard_amended_witness :
    saveInvocable stateSaving = false
    ∧ headerSaveDisabled stateEmptyDraft = true
    ∧ headerSaveDisabled stateAB = true
    ∧ (handleSave stateEmptyDraft (.ok recUpd) "T2").1 = [] := by
  have h := saveGuard_amended
  exact ⟨h.1 stateSaving (by decide), h.2.1 stateEmptyDraft (by decide) (by decide),
    h.2.2.1 stateAB (by decide) (by decide),
    h.2.2.2 stateEmptyDraft (.ok recUpd) "T2" (by decide)⟩

/-- C3: a successful delete of the selected note removes exactly the notes
carrying the selected id, keeps every other note, selects the first remaining
note of the pre-deletion unsorted order (or none), and shows the success
toast. -/
theorem handleDelete_success (s : AppState) (sid : String)
    (h1 : s.selectedId = some sid) (h2 : sid ≠ "")
    (hmem : ∃ n ∈ s.notes, n.id = some sid) :
    (handleDelete s (.ok ())).1 = [.delete sid]
    ∧ (handleDelete s (.ok ())).2.notes
        = s.notes.filter (fun n => !(n.id == some sid))
    ∧ (∀ n ∈ s.notes, n.id ≠ some sid → n ∈ (handleDelete s (.ok ())).2.notes)
    ∧ (∀ n ∈ (handleDelete s (.ok ())).2.notes, n.id ≠ some sid)
    ∧ (handleDelete s (.ok ())).2.notes.length < s.notes.length
    ∧ (handleDelete s (.ok ())).2.selectedId
        = (s.notes.filter (fun n => !(n.id == some sid))).head?.bind Note.id
    ∧ (handleDelete s (.ok ())).2.toast = some ⟨.success, "Note deleted."⟩
    ∧ (handleDelete s (.ok ())).2.isDeleting = false := by
  have hbeq : (sid == "") = false := by simp [h2]
  have hE : handleDelete s (.ok ()) = ([ApiCall.delete sid],
      afterSelectionChange s.selectedId
        { s with
          notes := s.notes.filter (fun n => !(n.id == some sid)),
          selectedId := (s.notes.filter (fun n => !(n.id == some sid))).head?.bind Note.id,
          toast := some ⟨.success, "Note deleted."⟩,
          isDeleting := false }) := by
    simp [handleDelete, h1, jsTruthyStr, hbeq]
  have hN : (handleDelete s (.ok ())).2.notes
      = s.notes.filter (fun n => !(n.id == some sid)) := by
    rw [hE]
    exact afterSelectionChange_notes _ _
  refine ⟨by rw [hE], hN, ?_, ?_, ?_, ?_, ?_, ?_⟩
  · intro n hn hneq
    rw [hN]
    exact List.mem_filter.mpr ⟨hn, by simp [hneq]⟩
  · intro n hn
    rw [hN] at hn
    have := (List.mem_filter.mp hn).2
    simpa using this
  · rw [hN]
    refine List.length_filter_lt_length_iff_exists.mpr ?_
    obtain ⟨n, hn, hid⟩ := hmem
    exact ⟨n, hn, by simp [hid]⟩
  · rw [hE]
    exact afterSelectionChange_selectedId _ _
  · rw [hE]
    exact afterSelectionChange_toast _ _
  · rw [hE]
    exact afterSelectionChange_isDeleting _ _

/-- C3 witness: with collection `[A, B]` and A selected, a successful delete
yields collection `[B]`, selection B, and the success toast. -/
theorem handleDelete_success_witness :
    (handleDelete stateAB (.ok ())).2.notes = [noteB]
    ∧ (handleDelete stateAB (.ok ())).2.selectedId = some "b"
    ∧ (handleDelete stateAB (.ok ())).2.toast = some ⟨.success, "Note deleted."⟩ := by
  have h := handleDelete_success stateAB "a" rfl (by decide)
    ⟨noteA, by decide, by decide⟩
  refine ⟨?_, ?_, h.2.2.2.2.2.2.1⟩
  · rw [h.2.1]
    decide
  · rw [h.2.2.2.2.2.1]
    decide

/-- C5: if the load is cancelled before its request resolves, the resolution
— success or failure — changes nothing beyond the synchronous start of the
load; in particular from the initial state the collection stays empty, no
selection is made, and no toast is set. -/
theorem loadCancelled_noop (s : AppState) (res : Except String ListResponse)
    (now : String) :
    (loadComplete s true res now).2 = { s with isLoading := true, toast := none }
    ∧ (loadComplete initialState true res now).2.notes = []
    ∧ (loadComplete initialState true res now).2.selectedId = none
    ∧ (loadComplete initialState true res now).2.toast = none := by
  have hgen : ∀ t : AppState,
      (loadComplete t true res now).2 = { t with isLoading := true, toast := none } := by
    intro t
    cases res with
    | error msg => rfl
    | ok r => cases hr : extractArr r <;> simp [loadComplete, hr]
  refine ⟨hgen s, ?_, ?_, ?_⟩ <;> rw [hgen initialState] <;> rfl

/-- C4: every failing execution of a fallible action — load failure (not
cancelled), save validation failure, save network failure, delete validation
failure, delete network failure — leaves the collection, the selection, and
the draft exactly as they were; only the toast is set to the error, and the
in-flight flag of the action is cleared by the end. -/
theorem failure_frame :
    (∀ (s : AppState) (msg now : String),
      (loadComplete s false (.error msg) now).2.notes = s.notes
      ∧ (loadComplete s false (.error msg) now).2.selectedId = s.selectedId
      ∧ (loadComplete s false (.error msg) now).2.draftTitle = s.draftTitle
      ∧ (loadComplete s false (.error msg) now).2.draftContent = s.draftContent
      ∧ (loadComplete s false (.error msg) now).2.toast = some ⟨.error, msg⟩
      ∧ (loadComplete s false (.error msg) now).2.isLoading = false)
    ∧ (∀ (s : AppState) (res : Except String ServerRecord) (now : String),
        s.isSaving = false → jsTrim s.draftTitle = "" →
      (handleSave s res now).1 = []
      ∧ (handleSave s res now).2.notes = s.notes
      ∧ (handleSave s res now).2.selectedId = s.selectedId
      ∧ (handleSave s res now).2.draftTitle = s.draftTitle
      ∧ (handleSave s res now).2.draftContent = s.draftContent
      ∧ (handleSave s res now).2.toast = some ⟨.error, "Title is required."⟩
      ∧ (handleSave s res now).2.isSaving = false)
    ∧ (∀ (s : AppState) (msg now : String), jsTrim s.draftTitle ≠ "" →
      (handleSave s (.error msg) now).2.notes = s.notes
      ∧ (handleSave s (.error msg) now).2.selectedId = s.selectedId
      ∧ (handleSave s (.error msg) now).2.draftTitle = s.draftTitle
      ∧ (handleSave s (.error msg) now).2.draftContent = s.draftContent
      ∧ (handleSave s (.error msg) now).2.toast = some ⟨.error, msg⟩
      ∧ (handleSave s (.error msg) now).2.isSaving = false)
    ∧ (∀ (s : AppState) (res : Except String Unit),
        s.isDeleting = false → jsTruthyStr s.selectedId = false →
      (handleDelete s res).1 = []
      ∧ (handleDelete s res).2.notes = s.notes
      ∧ (handleDelete s res).2.selectedId = s.selectedId
      ∧ (handleDelete s res).2.draftTitle = s.draftTitle
      ∧ (handleDelete s res).2.draftContent = s.draftContent
      ∧ (handleDelete s res).2.toast = some ⟨.error, "Select a note to delete."⟩
      ∧ (handleDelete s res).2.isDeleting = false)
    ∧ (∀ (s : AppState) (sid msg : String), s.selectedId = some sid → sid ≠ "" →
      (handleDelete s (.error msg)).2.notes = s.notes
      ∧ (handleDelete s (.error msg)).2.selectedId = s.selectedId
      ∧ (handleDelete s (.error msg)).2.draftTitle = s.draftTitle
      ∧ (handleDelete s (.error msg)).2.draftContent = s.draftContent
      ∧ (handleDelete s (.error msg)).2.toast = some ⟨.error, msg⟩
      ∧ (handleDelete s (.error msg)).2.isDeleting = false) := by
  refine ⟨?_, ?_, ?_, ?_, ?_⟩
  · intro s msg now
    exact ⟨rfl, rfl, rfl, rfl, rfl, rfl⟩
  · intro s res now h1 h2
    simp [handleSave, h2, h1]
  · intro s msg now h
    have hb : (jsTrim s.draftTitle == "") = false := by simp [h]
    cases hsel : s.selectedId with
    | none => simp [handleSave, hb, hsel, jsTruthyStr]
    | some sid =>
      by_cases hs : sid = ""
      · simp [handleSave, hb, hsel, jsTruthyStr, hs]
      · simp [handleSave, hb, hsel, jsTruthyStr, hs]
  · intro s res h1 h2
    simp [handleDelete, h2, h1]
  · intro s sid msg h1 h2
    have hbeq : (sid == "") = false := by simp [h2]
    simp [handleDelete, h1, jsTruthyStr, hbeq]

/-- C4 witness: concrete failing runs of load, save, and delete. -/
theorem failure_frame_witness :
    (loadComplete stateAB false (.error "boom") "T").2.notes = stateAB.notes
    ∧ (handleSave stateEmptyDraft (.ok recUpd) "T").2.toast
        = some ⟨.error, "Title is required."⟩
    ∧ (handleSave stateEdit (.error "down") "T").2.notes = stateEdit.notes
    ∧ (handleDelete stateEmptyDraft (.ok ())).1 = []
    ∧ (handleDelete stateAB (.error "down")).2.notes = stateAB.notes := by
  have h := failure_frame
  exact ⟨(h.1 stateAB "boom" "T").1,
    (h.2.1 stateEmptyDraft (.ok recUpd) "T" rfl (by decide)).2.2.2.2.2.1,
    (h.2.2.1 stateEdit "down" "T" (by decide)).1,
    (h.2.2.2.1 stateEmptyDraft (.ok ()) rfl (by decide)).1,
    (h.2.2.2.2 stateAB "a" "down" rfl (by decide)).1⟩

/-- C6: the visible list equals the full collection sorted by descending
time key and only then filtered by the query; the unfiltered visible list is
a permutation of the collection and is non-increasing in the key derived
from `updatedAt` (falling back to `createdAt`, then to epoch zero). -/
theorem filteredNotes_sorted (getTime : String → Int) (search : String)
    (notes : List Note) :
    filteredNotes getTime search notes
      = (sortNotes getTime notes).filter
          (fun n => (jsToLower (jsTrim search) == "")
            || matchesQuery (jsToLower (jsTrim search)) n)
    ∧ (filteredNotes getTime "" notes).Perm notes
    ∧ List.Pairwise (fun a b => sortKey getTime b ≤ sortKey getTime a)
        (filteredNotes getTime "" notes) := by
  have hsorted : List.Pairwise (fun a b => noteLe getTime a b = true)
      (sortNotes getTime notes) := by
    refine List.sorted_mergeSort ?_ ?_ notes
    · intro a b c hab hbc
      simp only [noteLe, decide_eq_true_eq] at hab hbc ⊢
      exact le_trans hbc hab
    · intro a b
      simp only [noteLe, Bool.or_eq_true, decide_eq_true_eq]
      exact le_total (sortKey getTime b) (sortKey getTime a)
  have hq0 : (jsToLower (jsTrim "") == "") = true := by decide
  have hbase : filteredNotes getTime "" notes = sortNotes getTime notes := by
    simp [filteredNotes, hq0]
  refine ⟨?_, ?_, ?_⟩
  · cases hq : (jsToLower (jsTrim search) == "") with
    | true => simp [filteredNotes, hq]
    | false => simp [filteredNotes, hq]
  · rw [hbase]
    exact List.mergeSort_perm notes (noteLe getTime)
  · rw [hbase]
    refine hsorted.imp ?_
    intro a b h
    simpa [noteLe] using h

/-- C8: a successful save with a note selected replaces, in place, every
collection entry whose id equals the selected id by the spread-merge of the
previous entry with the normalized server result (the normalized fields
win), keeps every other entry, keeps the selection and the draft, shows the
success toast "Note saved.", and clears the saving flag. -/
theorem handleSave_update_success (s : AppState) (sid : String)
    (rec : ServerRecord) (now : String) (h1 : s.selectedId = some sid)
    (h2 : sid ≠ "") (h3 : jsTrim s.draftTitle ≠ "") :
    (handleSave s (.ok rec) now).1
      = [.update sid (jsTrim s.draftTitle) (jsTrimEnd s.draftContent)]
    ∧ (handleSave s (.ok rec) now).2.notes
        = s.notes.map (fun n =>
            if n.id == some sid then spreadMerge n (normalizeNote now rec) else n)
    ∧ (∀ n ∈ s.notes, n.id ≠ some sid → n ∈ (handleSave s (.ok rec) now).2.notes)
    ∧ (handleSave s (.ok rec) now).2.selectedId = s.selectedId
    ∧ (handleSave s (.ok rec) now).2.draftTitle = s.draftTitle
    ∧ (handleSave s (.ok rec) now).2.draftContent = s.draftContent
    ∧ (handleSave s (.ok rec) now).2.toast = some ⟨.success, "Note saved."⟩
    ∧ (handleSave s (.ok rec) now).2.isSaving = false := by
  have hb : (jsTrim s.draftTitle == "") = false := by simp [h3]
  have hbeq : (sid == "") = false := by simp [h2]
  have hE : handleSave s (.ok rec) now
      = ([ApiCall.update sid (jsTrim s.draftTitle) (jsTrimEnd s.draftContent)],
         afterSelectionChange s.selectedId
           { s with
             notes := s.notes.map (fun n =>
               if n.id == some sid then spreadMerge n (normalizeNote now rec) else n),
             toast := some ⟨.success, "Note saved."⟩,
             isSaving := false }) := by
    simp [handleSave, hb, h1, jsTruthyStr, hbeq]
  rw [hE, afterSelectionChange_same _ _ (by rw [h1])]
  refine ⟨rfl, rfl, ?_, rfl, rfl, rfl, rfl, rfl⟩
  intro n hn hneq
  have hfalse : (n.id == some sid) = false := by simp [hneq]
  have hmm := List.mem_map_of_mem
    (fun n => if n.id == some sid then spreadMerge n (normalizeNote now rec) else n) hn
  simpa [hfalse] using hmm

/-- C8 witness: saving edited note A replaces its entry by the normalized
update result, keeps note B, keeps the selection, and shows the toast. -/
theorem handleSave_update_success_witness :
    (handleSave stateEdit (.ok recUpd) "T2").1 = [.update "a" "A2" "body2"]
    ∧ (handleSave stateEdit (.ok recUpd) "T2").2.notes
        = [spreadMerge noteA (normalizeNote "T2" recUpd), noteB]
    ∧ (handleSave stateEdit (.ok recUpd) "T2").2.selectedId = some "a"
    ∧ (handleSave stateEdit (.ok recUpd) "T2").2.toast
        = some ⟨.success, "Note saved."⟩ := by
  have h := handleSave_update_success stateEdit "a" recUpd "T2" rfl
    (by decide) (by decide)
  refine ⟨?_, ?_, ?_, h.2.2.2.2.2.2.1⟩
  · rw [h.1]
    decide
  · rw [h.2.1]
    decide
  · rw [h.2.2.2.1]
    rfl

/-- C9: for every API client operation, an unset base URL yields the
configuration error with no network call attempted; a non-2xx response
yields a single error carrying status code, status text, and the response
body, which is JSON-decoded exactly when the response declares a JSON
content type; and a 204 response is the successful empty (`null`) result. -/
theorem apiClient_error_contract (env : Env) (enc : String → String)
    (outcome : FetchOutcome) (id t c path : String) (r : HttpResp) :
    (getApiBase env = "" →
      listNotes env outcome = ([], .error missingBaseMsg)
      ∧ createNote env ⟨t, c⟩ outcome = ([], .error missingBaseMsg)
      ∧ (id ≠ "" → updateNote env enc id ⟨t, c⟩ outcome = ([], .error missingBaseMsg))
      ∧ (id ≠ "" → deleteNote env enc id outcome = ([], .error missingBaseMsg)))
    ∧ (getApiBase env ≠ "" → r.ok = false →
        (request env path (.response r)).1 ≠ []
        ∧ (request env path (.response r)).2 = .error (apiErrorMsg r))
    ∧ (getApiBase env ≠ "" → r.status = 204 →
        (request env path (.response r)).2 = .ok none)
    ∧ (jsIncludes r.contentType "application/json" = true →
        parseJsonOrText r = .json r.body)
    ∧ (jsIncludes r.contentType "application/json" = false →
        parseJsonOrText r = .text r.body)
    ∧ listNotes env outcome = request env "/notes" outcome
    ∧ createNote env ⟨t, c⟩ outcome = request env "/notes" outcome
    ∧ (id ≠ "" →
        updateNote env enc id ⟨t, c⟩ outcome = request env ("/notes/" ++ enc id) outcome)
    ∧ (id ≠ "" →
        deleteNote env enc id outcome = request env ("/notes/" ++ enc id) outcome) := by
  refine ⟨?_, ?_, ?_, ?_, ?_, rfl, rfl, ?_, ?_⟩
  · intro h
    refine ⟨by simp [listNotes, request, h], by simp [createNote, request, h], ?_, ?_⟩
    · intro hid
      have hidb : (id == "") = false := by simp [hid]
      simp [updateNote, request, h, hidb]
    · intro hid
      have hidb : (id == "") = false := by simp [hid]
      simp [deleteNote, request, h, hidb]
  · intro h1 h2
    have hb : (getApiBase env == "") = false := by simp [h1]
    constructor
    · simp [request, hb, h2]
    · simp [request, hb, h2]
  · intro h1 h2
    have hb : (getApiBase env == "") = false := by simp [h1]
    have hok : r.ok = true := by simp [HttpResp.ok, h2]
    simp [request, hb, hok, h2]
  · intro h
    simp [parseJsonOrText, h]
  · intro h
    simp [parseJsonOrText, h]
  · intro hid
    have hidb : (id == "") = false := by simp [hid]
    simp [updateNote, hidb]
  · intro hid
    have hidb : (id == "") = false := by simp [hid]
    simp [deleteNote, hidb]

/-- C9 witness: concrete environments and responses for the configuration
error, the non-2xx error, and the 204 empty success. -/
theorem apiClient_error_contract_witness :
    listNotes ⟨"", ""⟩ (.response ⟨404, "NF", "", "oops"⟩) = ([], .error missingBaseMsg)
    ∧ (request ⟨"http://b", ""⟩ "/notes" (.response ⟨404, "NF", "", "oops"⟩)).2
        = .error (apiErrorMsg ⟨404, "NF", "", "oops"⟩)
    ∧ (request ⟨"http://b", ""⟩ "/notes" (.response ⟨204, "NC", "", ""⟩)).2
        = .ok none := by
  have hempty := apiClient_error_contract ⟨"", ""⟩ (fun x => x)
    (.response ⟨404, "NF", "", "oops"⟩) "i" "t" "c" "/notes" ⟨404, "NF", "", "oops"⟩
  have hset := apiClient_error_contract ⟨"http://b", ""⟩ (fun x => x)
    (.response ⟨404, "NF", "", "oops"⟩) "i" "t" "c" "/notes" ⟨404, "NF", "", "oops"⟩
  have h204 := apiClient_error_contract ⟨"http://b", ""⟩ (fun x => x)
    (.response ⟨204, "NC", "", ""⟩) "i" "t" "c" "/notes" ⟨204, "NC", "", ""⟩
  exact ⟨(hempty.1 (by decide)).1, (hset.2.1 (by decide) (by decide)).2,
    h204.2.2.1 (by decide) rfl⟩

/-- C10: a list response that is neither an array nor an object with a
truthy `notes` member (nullish, a primitive, or an object whose `notes` is
falsy) completes the initial load successfully with an empty collection, no
selection, and no toast. -/
theorem load_unrecognized_shape (r : ListResponse) (now : String)
    (h : unrecognizedShape r = true) :
    (loadComplete initialState false (.ok r) now).2.notes = []
    ∧ (loadComplete initialState false (.ok r) now).2.selectedId = none
    ∧ (loadComplete initialState false (.ok r) now).2.toast = none
    ∧ (loadComplete initialState false (.ok r) now).2.isLoading = false := by
  have hx : extractArr r = .ok [] := by
    cases r with
    | arrayOf xs => simp [unrecognizedShape] at h
    | objectWith nf =>
      cases nf with
      | falsy => rfl
      | arrayOf xs => simp [unrecognizedShape] at h
      | truthyNonArray => simp [unrecognizedShape] at h
    | nullish => rfl
    | primitive b => rfl
  simp [loadComplete, hx, afterSelectionChange, initialState]

/-- C10 witness: a nullish list response loads as zero notes. -/
theorem load_unrecognized_shape_witness :
    unrecognizedShape .nullish = true
    ∧ (loadComplete initialState false (.ok .nullish) "T").2.notes = []
    ∧ (loadComplete initialState false (.ok .nullish) "T").2.toast = none := by
  have h := load_unrecognized_shape .nullish "T" (by decide)
  exact ⟨by decide, h.1, h.2.2.1⟩
